import Mathlib

/-!
Verification of the Block entity model of the gmsh_scripts repository
(`block.py`): canonical topology tables, the structure-type resolver,
the transform propagation over the Block tree, and the
registration/unregistration lifecycle against an abstract geometry kernel.

The Python classes are shallowly embedded: pure methods become Lean
functions, the mutable kernel session becomes an explicit `Kernel` state
threaded through the registration functions, and Python exceptions become
`Except` results.  External collaborator modules of the repository that
are not part of the analysed sources (`registry.py`, `support.py`,
`transform.py`) are modelled from their specified interfaces; every such
definition is marked `Modelled from the spec:` in its doc comment.
-/

/-- Python exception kinds that `Block.parse_structure_type` can raise,
carrying the offending `structure_type` string. -/
inductive PyError where
  | valueError (msg : String)
  | notImplementedError (msg : String)
deriving DecidableEq, Repr

/-- The fixed face-corner index table defined at the top of
`Block.parse_structure_type`: which 4 of the 8 block corners form each
face's parametric quad, in face order NX, X, NY, Y, NZ, Z. -/
def surfaces_points : List (List Nat) :=
  [[1, 5, 6, 2],  -- NX
   [0, 3, 7, 4],  -- X
   [3, 2, 6, 7],  -- NY
   [0, 4, 5, 1],  -- Y
   [0, 1, 2, 3],  -- NZ
   [4, 7, 6, 5]]  -- Z

/-- `Block.parse_structure_type` from `block.py`.  Returns the surfaces
arrangement, the face-corner table and the volume corner permutation for
the four implemented codes.  The membership test for the unimplemented
codes reproduces the Python literal list `['RLL', 'LRL', 'LLR' 'RRR']`,
in which the missing comma makes Python concatenate the two adjacent
string literals into the single element `'LLRRRR'`; the Lean term
therefore uses `"LLR" ++ "RRR"`. -/
def parse_structure_type (structure_type : String) :
    Except PyError (List String × List (List Nat) × List Nat) :=
  if structure_type = "LLL" then
    .ok (["Left", "Left", "Left", "Left", "Left", "Left"],
         surfaces_points, [0, 1, 2, 3, 4, 5, 6, 7])
  else if structure_type = "RRL" then
    .ok (["Right", "Right", "Right", "Right", "Left", "Left"],
         surfaces_points, [2, 3, 0, 1, 6, 7, 4, 5])
  else if structure_type = "LRR" then
    .ok (["Left", "Left", "Right", "Right", "Right", "Right"],
         surfaces_points, [1, 2, 3, 0, 5, 6, 7, 4])
  else if structure_type = "RLR" then
    .ok (["Right", "Right", "Left", "Left", "Right", "Right"],
         surfaces_points, [3, 0, 1, 2, 7, 4, 5, 6])
  else if ["RLL", "LRL", "LLR" ++ "RRR"].contains structure_type then
    .error (.notImplementedError structure_type)
  else
    .error (.valueError structure_type)

/-- The class attribute `Block.curves_points`: the two endpoint corner
indices of each of the 12 edges (edge runs from the first listed corner
to the second). -/
def curves_points : List (List Nat) :=
  [[1, 0], [5, 4], [6, 7], [2, 3],  -- X1, X2, X3, X4
   [3, 0], [2, 1], [6, 5], [7, 4],  -- Y1, Y2, Y3, Y4
   [0, 4], [1, 5], [2, 6], [3, 7]]  -- Z1, Z2, Z3, Z4

/-- The class attribute `Block.surfaces_curves`: the 4 edge indices of
each face's curve loop, in face order NX, X, NY, Y, NZ, Z. -/
def surfaces_curves : List (List Nat) :=
  [[5, 9, 6, 10],  -- NX
   [4, 11, 7, 8],  -- X
   [10, 2, 11, 3],  -- NY
   [0, 8, 1, 9],  -- Y
   [0, 5, 3, 4],  -- NZ
   [7, 2, 6, 1]]  -- Z

/-- The class attribute `Block.surfaces_curves_signs`: the orientation
sign of each edge inside each face's curve loop. -/
def surfaces_curves_signs : List (List Int) :=
  [[1, 1, -1, -1],  -- NX
   [-1, 1, 1, -1],  -- X
   [1, 1, -1, -1],  -- NY
   [1, 1, -1, -1],  -- Y
   [-1, -1, 1, 1],  -- NZ
   [-1, -1, 1, 1]]  -- Z

/-- The edge endpoint pairs as documented in the `Block` class docstring
(`C0: P1 -> P0` through `C11: P3 -> P7`). -/
def curves_points_documented : List (List Nat) :=
  [[1, 0], [5, 4], [6, 7], [2, 3],
   [3, 0], [2, 1], [6, 5], [7, 4],
   [0, 4], [1, 5], [2, 6], [3, 7]]

/-- The face loops as documented in the `Block` class docstring
(`S0: C5 -> C9 -> -C6 -> -C10` through `S5: C1 -> -C7 -> -C2 -> C6`):
edge indices in the documented traversal order. -/
def surfaces_curves_documented : List (List Nat) :=
  [[5, 9, 6, 10],  -- S0 NX
   [4, 11, 7, 8],  -- S1 X
   [3, 10, 2, 11],  -- S2 NY
   [0, 8, 1, 9],  -- S3 Y
   [0, 5, 3, 4],  -- S4 NZ
   [1, 7, 2, 6]]  -- S5 Z

/-- The orientation signs of the documented face loops of the `Block`
class docstring, aligned with `surfaces_curves_documented`. -/
def surfaces_curves_signs_documented : List (List Int) :=
  [[1, 1, -1, -1],  -- S0 NX
   [-1, 1, 1, -1],  -- S1 X
   [-1, 1, 1, -1],  -- S2 NY
   [1, 1, -1, -1],  -- S3 Y
   [-1, -1, 1, 1],  -- S4 NZ
   [1, -1, -1, 1]]  -- S5 Z

/-- Does the list `a` share at least one element with the list `b`?
Helper for the boolean grouping collaborator. -/
def sharesTag (a b : List Nat) : Bool :=
  a.any (fun x => b.contains x)

/-- Merge one boundary-face-tag list into an accumulated list of groups:
all existing groups that share a tag with `l` are fused with `l` into a
single group.  Helper for the boolean grouping collaborator. -/
def insertIntoGroups (gs : List (List Nat)) (l : List Nat) : List (List Nat) :=
  let touched := gs.filter (fun g => sharesTag g l)
  let rest := gs.filter (fun g => !sharesTag g l)
  (touched.foldl (fun acc g => acc ++ g) l) :: rest

/-- Modelled from the spec: `support.volumes_surfaces_to_volumes_groups_surfaces`
(module `support.py` is not among the analysed sources).  Per the spec's
interface description of the boolean grouping collaborator, it partitions
the given boundary-face-tag lists into connected components: lists
sharing at least one tag belong to the same group; it is a pure function
with no kernel side effects. -/
def volumes_surfaces_to_volumes_groups_surfaces
    (volumes_surfaces : List (List Nat)) : List (List Nat) :=
  volumes_surfaces.foldl insertIntoGroups []

/-- A surface loop as held by a Block or Volume: an optional kernel tag
and the kernel tags of its bounding surfaces. -/
structure RSurfaceLoop where
  tag : Option Nat
  surfaces : List Nat
deriving Repr

/-- A volume of a Block: its zone name (always set by `Block.__init__`,
which replaces a `None` zone by the default volume zone), its optional
kernel tag, and its surface loops (outer loop first). -/
structure RVolume where
  zone : String
  tag : Option Nat
  surfaces_loops : List RSurfaceLoop
deriving Repr

/-- One registration event of the geometry kernel session. -/
inductive KEvent where
  | pointEv (tag : Nat)
  | curveEv (tag : Nat)
  | curveLoopEv (tag : Nat) (curves : List Nat) (signs : List Int)
  | surfaceEv (tag : Nat) (curveLoop : Nat)
  | surfaceLoopEv (tag : Nat) (surfaces : List Nat)
  | volumeEv (tag : Nat) (loops : List (List Nat)) (zone : String)
  | curveStructureEv
  | surfaceStructureEv
  | volumeStructureEv
  | surfaceQuadrateEv
  | unregisterVolumeEv (tag : Nat)
deriving Repr

/-- Modelled from the spec: the process-global geometry kernel session of
`registry.py` (not among the analysed sources), made explicit.  `nextTag`
is the kernel's tag counter, `trace` the chronological list of entity
registrations, `regVolumes` the tags of the currently registered
volumes. -/
structure Kernel where
  nextTag : Nat
  trace : List KEvent
  regVolumes : List Nat
deriving Repr

/-- Modelled from the spec: `registry.register_point` and its siblings
assign a fresh kernel tag to one entity and record it; the
`use_register_tag` flag only selects which tag counter the registry uses
and is irrelevant to this model's single counter. -/
def registerFresh (ev : Nat → KEvent) (k : Kernel) : Nat × Kernel :=
  (k.nextTag,
   { k with nextTag := k.nextTag + 1, trace := k.trace ++ [ev k.nextTag] })

/-- Register `n` fresh entities of one kind, returning their tags. -/
def registerFreshMany (ev : Nat → KEvent) : Nat → Kernel → List Nat × Kernel
  | 0, k => ([], k)
  | n + 1, k =>
    let (t, k') := registerFresh ev k
    let (ts, k'') := registerFreshMany ev n k'
    (t :: ts, k'')

/-- A point as the transform machinery sees it: its payload of abstract
type `P` and whether its coordinate system is the Block-relative one
(`coordinate_system.Block`). -/
structure TPoint (P : Type) where
  isBlockCS : Bool
  val : P
deriving Repr

/-- The per-instance state of a `Block` (everything `Block.__init__`
sets except the children list, which lives in the tree node).  Transforms
are abstract values of type `T`, point payloads abstract values of type
`P`.  Python replaces point/curve/surface objects by kernel-tagged
objects during registration; the model keeps the geometric payloads and
records the assigned tags in the `...Tags` fields.  `hasParent` models
`parent is not None`; structure and quadrate directives are modelled by
whether they are present (`True` entries). -/
structure BlockData (T P : Type) where
  points : List (TPoint P)
  curvePoints : List (List (TPoint P))
  register_tag : Bool
  do_register : Bool
  do_unregister : Bool
  do_register_children : Bool
  do_unregister_children : Bool
  do_unregister_boolean : Bool
  do_unregister_boolean_children : Bool
  transforms : List T
  curves_structures : List Bool
  surfaces_structures : List Bool
  volumes_structures : List Bool
  surfaces_quadrates : List Bool
  volumes : List RVolume
  hasParent : Bool
  children_transforms : List (List T)
  boolean_level : Option Int
  surfaces_loops : List RSurfaceLoop
  is_registered : Bool
  pointTags : List Nat
  curveTags : List Nat
  curveLoopTags : List Nat
  surfaceTags : List Nat

/-- A Block tree node: the instance state plus the owned children. -/
inductive Block (T P : Type) where
  | mk : BlockData T P → List (Block T P) → Block T P

/-- The instance state of a Block tree node. -/
def Block.data {T P : Type} : Block T P → BlockData T P
  | .mk d _ => d

/-- The children of a Block tree node. -/
def Block.children {T P : Type} : Block T P → List (Block T P)
  | .mk _ cs => cs

/-- `Block.register_points`: register every corner point (8 on a
canonical Block), keeping the assigned tags. -/
def register_points {T P : Type} (d : BlockData T P) (k : Kernel) :
    BlockData T P × Kernel :=
  let (ts, k') := registerFreshMany KEvent.pointEv d.points.length k
  ({ d with pointTags := ts }, k')

/-- `Block.register_curve_points`: register the interior points of every
curve (the subsequent splicing of the two corner points onto each curve
touches no kernel state). -/
def register_curve_points {T P : Type} (d : BlockData T P) (k : Kernel) :
    BlockData T P × Kernel :=
  (d, d.curvePoints.foldl
        (fun acc ps => (registerFreshMany KEvent.pointEv ps.length acc).2) k)

/-- `Block.register_curves`: register the 12 curves, keeping their tags. -/
def register_curves {T P : Type} (d : BlockData T P) (k : Kernel) :
    BlockData T P × Kernel :=
  let (ts, k') := registerFreshMany KEvent.curveEv d.curvePoints.length k
  ({ d with curveTags := ts }, k')

/-- `Block.register_curves_loops`: build the loop of face `i` from the
canonical `surfaces_curves` edge-index table applied to the registered
curve tags, with the canonical `surfaces_curves_signs`, and register the
6 loops. -/
def register_curves_loops {T P : Type} (d : BlockData T P) (k : Kernel) :
    BlockData T P × Kernel :=
  let rec go : List Nat → Kernel → List Nat × Kernel
    | [], k0 => ([], k0)
    | i :: is, k0 =>
      let curves := (surfaces_curves.getD i []).map (fun j => d.curveTags.getD j 0)
      let signs := surfaces_curves_signs.getD i []
      let (t, k1) := registerFresh (fun t => KEvent.curveLoopEv t curves signs) k0
      let (ts, k2) := go is k1
      (t :: ts, k2)
  let (ts, k') := go (List.range 6) k
  ({ d with curveLoopTags := ts }, k')

/-- `Block.register_surfaces`: register the 6 surfaces, each bound to
its single curve loop (a canonical Block has exactly 6 surfaces). -/
def register_surfaces {T P : Type} (d : BlockData T P) (k : Kernel) :
    BlockData T P × Kernel :=
  let rec go : List Nat → Kernel → List Nat × Kernel
    | [], k0 => ([], k0)
    | i :: is, k0 =>
      let (t, k1) := registerFresh (fun t => KEvent.surfaceEv t (d.curveLoopTags.getD i 0)) k0
      let (ts, k2) := go is k1
      (t :: ts, k2)
  let (ts, k') := go (List.range 6) k
  ({ d with surfaceTags := ts }, k')

/-- Modelled from the spec: `registry.register_surface_loop` assigns a
fresh tag to a surface loop and records it. -/
def register_surface_loop (sl : RSurfaceLoop) (k : Kernel) :
    RSurfaceLoop × Kernel :=
  ({ sl with tag := some k.nextTag },
   { k with nextTag := k.nextTag + 1,
            trace := k.trace ++ [KEvent.surfaceLoopEv k.nextTag sl.surfaces] })

/-- The child scan of `Block.register_surfaces_loops`: over all children
with `do_register` set, collect their volume lists, raising if such a
child has not completed registration. -/
def collect_internal_volumes {T P : Type} :
    List (Block T P) → Except String (List (List RVolume))
  | [] => .ok []
  | c :: cs =>
    if c.data.do_register then
      if !c.data.is_registered then .error "Register children before parent!"
      else
        match collect_internal_volumes cs with
        | .error e => .error e
        | .ok r => .ok (c.data.volumes :: r)
    else collect_internal_volumes cs

/-- Register one internal surface loop per surface group. -/
def register_groups : List (List Nat) → Kernel → List RSurfaceLoop × Kernel
  | [], k => ([], k)
  | g :: gs, k =>
    let (sl, k') := register_surface_loop { tag := none, surfaces := g } k
    let (sls, k'') := register_groups gs k'
    (sl :: sls, k'')

/-- `Block.register_surfaces_loops`: set the surfaces of the outer loop
(index 0, present since `__init__`) to the Block's own 6 registered
surfaces and register it; then, only when `boolean_level is None`, scan
the children, collect each registered child volume's outer-boundary
surface-tag list, partition the collected lists with the boolean
grouping collaborator, and register and append one internal loop per
group. -/
def register_surfaces_loops {T P : Type} (d : BlockData T P)
    (children : List (Block T P)) (k : Kernel) :
    Except String (BlockData T P × Kernel) :=
  let sl0 := { (d.surfaces_loops.headD { tag := none, surfaces := [] }) with
               surfaces := d.surfaceTags }
  let (sl0', k1) := register_surface_loop sl0 k
  let loops0 := d.surfaces_loops.set 0 sl0'
  match d.boolean_level with
  | some _ => .ok ({ d with surfaces_loops := loops0 }, k1)
  | none =>
    match collect_internal_volumes children with
    | .error e => .error e
    | .ok internal_volumes =>
      let volumes_surfaces :=
        (internal_volumes.flatMap (fun x => x)).map
          (fun y => (y.surfaces_loops.headD { tag := none, surfaces := [] }).surfaces)
      let surfaces_groups :=
        volumes_surfaces_to_volumes_groups_surfaces volumes_surfaces
      let (newLoops, k2) := register_groups surfaces_groups k1
      .ok ({ d with surfaces_loops := loops0 ++ newLoops }, k2)

/-- Modelled from the spec: `registry.register_volume` assigns a fresh
tag to a volume and records it among the registered volumes. -/
def register_volume (v : RVolume) (k : Kernel) : RVolume × Kernel :=
  ({ v with tag := some k.nextTag },
   { k with nextTag := k.nextTag + 1,
            trace := k.trace ++
              [KEvent.volumeEv k.nextTag (v.surfaces_loops.map (fun sl => sl.surfaces)) v.zone],
            regVolumes := k.regVolumes ++ [k.nextTag] })

/-- `Block.register_volumes`: attach all surface loops to the first
volume, register it, and mark the Block registered. -/
def register_volumes {T P : Type} (d : BlockData T P) (k : Kernel) :
    BlockData T P × Kernel :=
  let v := d.volumes.headD { zone := "V", tag := none, surfaces_loops := [] }
  let (v', k') := register_volume { v with surfaces_loops := d.surfaces_loops } k
  ({ d with volumes := d.volumes.set 0 v', is_registered := true }, k')

/-- `Block.register_structure`: register the structure directive of every
curve, surface and volume that has one (indices past the directive lists
register nothing, matching the guard on the volume loop; on a canonical
Block the lists have matching lengths). -/
def register_structure {T P : Type} (d : BlockData T P) (k : Kernel) :
    BlockData T P × Kernel :=
  let k1 := d.curves_structures.foldl
    (fun acc b => if b then { acc with trace := acc.trace ++ [KEvent.curveStructureEv] } else acc) k
  let k2 := d.surfaces_structures.foldl
    (fun acc b => if b then { acc with trace := acc.trace ++ [KEvent.surfaceStructureEv] } else acc) k1
  let k3 := (d.volumes_structures.take d.volumes.length).foldl
    (fun acc b => if b then { acc with trace := acc.trace ++ [KEvent.volumeStructureEv] } else acc) k2
  (d, k3)

/-- `Block.register_quadrate`: register the quadrate directive of every
surface that has one. -/
def register_quadrate {T P : Type} (d : BlockData T P) (k : Kernel) :
    BlockData T P × Kernel :=
  (d, d.surfaces_quadrates.foldl
    (fun acc b => if b then { acc with trace := acc.trace ++ [KEvent.surfaceQuadrateEv] } else acc) k)

mutual
/-- `Block.register`: recurse into the children first when
`do_register_children` is set; then, unless self-registration is
disabled or already done, run the registration pipeline and mark the
Block registered. -/
def Block.register {T P : Type} : Block T P → Kernel → Except String (Block T P × Kernel)
  | .mk d cs, k =>
    match (if d.do_register_children then registerChildren cs k else .ok (cs, k)) with
    | .error e => .error e
    | .ok (cs', k1) =>
      if !d.do_register || d.is_registered then .ok (.mk d cs', k1)
      else
        let (d1, k2) := register_points d k1
        let (d2, k3) := register_curve_points d1 k2
        let (d3, k4) := register_curves d2 k3
        let (d4, k5) := register_curves_loops d3 k4
        let (d5, k6) := register_surfaces d4 k5
        match register_surfaces_loops d5 cs' k6 with
        | .error e => .error e
        | .ok (d6, k7) =>
          let (d7, k8) := register_volumes d6 k7
          let (d8, k9) := register_structure d7 k8
          let (d9, k10) := register_quadrate d8 k9
          .ok (.mk d9 cs', k10)

/-- The child loop of `Block.register`. -/
def registerChildren {T P : Type} : List (Block T P) → Kernel → Except String (List (Block T P) × Kernel)
  | [], k => .ok ([], k)
  | c :: cs, k =>
    match Block.register c k with
    | .error e => .error e
    | .ok (c', k') =>
      match registerChildren cs k' with
      | .error e => .error e
      | .ok (cs', k'') => .ok (c' :: cs', k'')
end

/-- Python's containment test `c in s` of the one-character zone
separator in a zone name, as a computation over the string's character
list. -/
def zoneContains (s : String) (c : Char) : Bool :=
  s.data.contains c

/-- Modelled from the spec: `registry.unregister_volume` removes one
registered volume from the kernel (volumes carry a tag once
registered; an untagged volume has nothing to remove). -/
def unregister_volume (v : RVolume) (k : Kernel) : RVolume × Kernel :=
  match v.tag with
  | some t => (v, { k with trace := k.trace ++ [KEvent.unregisterVolumeEv t],
                           regVolumes := k.regVolumes.erase t })
  | none => (v, k)

/-- The volume loop shared by `Block.unregister` and
`Block.unregister_boolean`: unregister every volume satisfying the
predicate, replacing it in place. -/
def unregister_volumes_where (p : RVolume → Bool) :
    List RVolume → Kernel → List RVolume × Kernel
  | [], k => ([], k)
  | v :: vs, k =>
    let (v', k') := if p v then unregister_volume v k else (v, k)
    let (vs', k'') := unregister_volumes_where p vs k'
    (v' :: vs', k'')

mutual
/-- `Block.unregister`: recurse into the children first when
`do_unregister_children` is set (the recursive call uses the default
separator); then, if unregistration is enabled and the Block was
registered, unregister exactly the volumes whose zone does not contain
the separator.  The separator is modelled as the character `'-'` of its
only call sites (Python's substring test on a one-character separator). -/
def Block.unregister {T P : Type} (zone_separator : Char) :
    Block T P → Kernel → Block T P × Kernel
  | .mk d cs, k =>
    let (cs', k1) :=
      if d.do_unregister_children then unregisterChildren cs k else (cs, k)
    if !d.do_unregister then (.mk d cs', k1)
    else if !d.is_registered then (.mk d cs', k1)
    else
      let (vs', k2) := unregister_volumes_where
        (fun v => !zoneContains v.zone zone_separator) d.volumes k1
      (.mk { d with volumes := vs' } cs', k2)

/-- The child loop of `Block.unregister` (children are unregistered with
the default separator `'-'`). -/
def unregisterChildren {T P : Type} :
    List (Block T P) → Kernel → List (Block T P) × Kernel
  | [], k => ([], k)
  | c :: cs, k =>
    let (c', k') := Block.unregister '-' c k
    let (cs', k'') := unregisterChildren cs k'
    (c' :: cs', k'')
end

mutual
/-- `Block.unregister_boolean`: recurse into the children first when
`do_unregister_boolean_children` is set; then, if the Block was
registered, boolean unregistration is enabled and `boolean_level` is not
`None`, unregister exactly the volumes whose zone contains the
separator. -/
def Block.unregister_boolean {T P : Type} (zone_separator : Char) :
    Block T P → Kernel → Block T P × Kernel
  | .mk d cs, k =>
    let (cs', k1) :=
      if d.do_unregister_boolean_children then unregisterBooleanChildren cs k
      else (cs, k)
    if !d.is_registered || !d.do_unregister_boolean then (.mk d cs', k1)
    else
      match d.boolean_level with
      | none => (.mk d cs', k1)
      | some _ =>
        let (vs', k2) := unregister_volumes_where
          (fun v => zoneContains v.zone zone_separator) d.volumes k1
        (.mk { d with volumes := vs' } cs', k2)

/-- The child loop of `Block.unregister_boolean` (children use the
default separator `'-'`). -/
def unregisterBooleanChildren {T P : Type} :
    List (Block T P) → Kernel → List (Block T P) × Kernel
  | [], k => ([], k)
  | c :: cs, k =>
    let (c', k') := Block.unregister_boolean '-' c k
    let (cs', k'') := unregisterBooleanChildren cs k'
    (c' :: cs', k'')
end

/-- Modelled from the spec: `transform.reduce_transforms` (module
`transform.py` is not among the analysed sources) composes the ordered
transform list into one operation applied to a single point, preserving
algebraic order: the head of the list is applied first.  Transforms are
abstract values of type `T` acting on point payloads through `app`. -/
def reduce_transforms {T P : Type} (app : T → P → P) (ts : List T) (p : P) : P :=
  ts.foldl (fun q t => app t q) p

/-- The point loop of `Block.transform`: a point whose coordinate system
is Block-relative requires a parent (its re-anchoring against the
parent's corner points only rebinds coordinate-system data inside the
abstract payload); every point is replaced by its transform under the
full accumulated list `ts`.  Python raises at the first offending point;
the model returns that error. -/
def transform_points {T P : Type} (app : T → P → P) (hasParent : Bool)
    (ts : List T) : List (TPoint P) → Except String (List (TPoint P))
  | [] => .ok []
  | p :: ps =>
    if p.isBlockCS && !hasParent then
      .error "The parent must exist with Block Coordinate System!"
    else
      match transform_points app hasParent ts ps with
      | .error e => .error e
      | .ok ps' => .ok ({ p with val := reduce_transforms app ts p.val } :: ps')

/-- The curve-point loop of `Block.transform`: the interior points of
every curve are transformed exactly like the Block's own points. -/
def transform_curve_points {T P : Type} (app : T → P → P) (hasParent : Bool)
    (ts : List T) : List (List (TPoint P)) → Except String (List (List (TPoint P)))
  | [] => .ok []
  | c :: cs =>
    match transform_points app hasParent ts c with
    | .error e => .error e
    | .ok c' =>
      match transform_curve_points app hasParent ts cs with
      | .error e => .error e
      | .ok cs' => .ok (c' :: cs')

mutual
/-- `Block.transform` with the extension its caller appends to this
Block's transform list made explicit: Python extends the child's
`transforms` in place with `children_transforms[i]` and then the
parent's list before recursing; the model passes that extension down as
`extra` and stores the extended list in the result, which is the same
final state.  Children are processed first, then the Block's own points,
then its curve interior points. -/
def Block.transformAux {T P : Type} (app : T → P → P) (extra : List T) :
    Block T P → Except String (Block T P)
  | .mk d cs =>
    let ts := d.transforms ++ extra
    match transformChildrenAux app cs d.children_transforms ts with
    | .error e => .error e
    | .ok cs' =>
      match transform_points app d.hasParent ts d.points with
      | .error e => .error e
      | .ok ps' =>
        match transform_curve_points app d.hasParent ts d.curvePoints with
        | .error e => .error e
        | .ok cps' =>
          .ok (.mk { d with transforms := ts, points := ps', curvePoints := cps' } cs')

/-- The child loop of `Block.transform`: child `i` has its transform
list extended with `children_transforms[i]` followed by the parent's
accumulated list, then is recursed into (`__init__` and `add_child` keep
`children_transforms` aligned with `children`, so positional pairing
equals Python's indexing). -/
def transformChildrenAux {T P : Type} (app : T → P → P) :
    List (Block T P) → List (List T) → List T → Except String (List (Block T P))
  | [], _, _ => .ok []
  | c :: cs, cts, ts =>
    match Block.transformAux app (cts.headD [] ++ ts) c with
    | .error e => .error e
    | .ok c' =>
      match transformChildrenAux app cs cts.tail ts with
      | .error e => .error e
      | .ok cs' => .ok (c' :: cs')
end

/-- `Block.transform` as called on a Block: no extension from outside. -/
def Block.transform {T P : Type} (app : T → P → P) (b : Block T P) :
    Except String (Block T P) :=
  Block.transformAux app [] b

/-- The guarantees the spec states for one implemented structure-type
code: parsing succeeds with a 6-entry Left/Right arrangement list, the
fixed face-corner table, and a volume-corner permutation of 0..7. -/
def implementedStructureTypeOk (st : String) : Prop :=
  ∃ arr sp vp, parse_structure_type st = .ok (arr, sp, vp) ∧
    arr.length = 6 ∧ (∀ a ∈ arr, a = "Left" ∨ a = "Right") ∧
    vp.Perm (List.range 8) ∧ sp = surfaces_points

/-- C2: the four structure-type codes RLL, LRL, LLR and RRR are meant to
raise NotImplementedError, but the missing comma in the Python literal
list `['RLL', 'LRL', 'LLR' 'RRR']` merges the last two entries into
`'LLRRRR'`, so LLR and RRR fall through to the generic ValueError branch
while RLL and LRL do raise NotImplementedError. -/
theorem parse_structure_type_llr_rrr_raise_value_error :
    parse_structure_type "LLR" = .error (.valueError "LLR") ∧
    parse_structure_type "RRR" = .error (.valueError "RRR") ∧
    parse_structure_type "RLL" = .error (.notImplementedError "RLL") ∧
    parse_structure_type "LRL" = .error (.notImplementedError "LRL") := by
  refine ⟨?_, ?_, ?_, ?_⟩ <;> rfl

/-- C5: each of the four implemented structure-type codes LLL, RRL, LRR
and RLR yields a 6-entry arrangement list of Left/Right values, the same
fixed face-corner table, and a volume-corner list that is a permutation
of 0..7. -/
theorem parse_structure_type_implemented_codes_ok :
    implementedStructureTypeOk "LLL" ∧ implementedStructureTypeOk "RRL" ∧
    implementedStructureTypeOk "LRR" ∧ implementedStructureTypeOk "RLR" := by
  refine ⟨⟨_, _, _, rfl, ?_⟩, ⟨_, _, _, rfl, ?_⟩,
         ⟨_, _, _, rfl, ?_⟩, ⟨_, _, _, rfl, ?_⟩⟩ <;>
    exact ⟨by decide, by decide, by decide, rfl⟩

/-- C8 counterexample: the curve loop of face index 2 (the NY face) is
not in the traversal order documented in the class docstring
(`S2: -C3 -> C10 -> C2 -> -C11`); the class attribute rotates it by one
position. -/
theorem surfaces_curves_ny_differs_from_documentation :
    surfaces_curves.getD 2 [] = [10, 2, 11, 3] ∧
    surfaces_curves_documented.getD 2 [] = [3, 10, 2, 11] ∧
    surfaces_curves.getD 2 [] ≠ surfaces_curves_documented.getD 2 [] := by
  decide

/-- C8 (amended): the 12 edges connect exactly the documented corner
pairs, and each face's 4-curve loop uses exactly the 4 documented edge
indices with the documented orientation signs up to one common cyclic
rotation of the loop (faces NX, X, Y and NZ match the documented order
exactly, faces NY and Z are rotated by one position). -/
theorem topology_tables_match_documentation_up_to_rotation :
    curves_points = curves_points_documented ∧
    (∀ i < 6, ∃ r < 4,
      surfaces_curves.getD i [] = (surfaces_curves_documented.getD i []).rotateLeft r ∧
      surfaces_curves_signs.getD i [] =
        (surfaces_curves_signs_documented.getD i []).rotateLeft r) := by
  decide

theorem collect_internal_volumes_error {T P : Type} :
    ∀ cs : List (Block T P),
    (∃ c ∈ cs, c.data.do_register = true ∧ c.data.is_registered = false) →
    collect_internal_volumes cs = .error "Register children before parent!" := by
  intro cs h
  induction cs with
  | nil => simp at h
  | cons c cs ih =>
    obtain ⟨c0, hc0mem, hdr, hir⟩ := h
    simp only [List.mem_cons] at hc0mem
    rw [collect_internal_volumes]
    rcases hc0mem with rfl | hmem
    · simp [hdr, hir]
    · by_cases h1 : c.data.do_register = true
      · by_cases h2 : c.data.is_registered = true
        · simp [h1, h2, ih ⟨c0, hmem, hdr, hir⟩]
        · simp only [Bool.not_eq_true] at h2
          simp [h1, h2]
      · simp only [Bool.not_eq_true] at h1
        simp [h1, ih ⟨c0, hmem, hdr, hir⟩]

/-- C1 (amended): when the parent itself proceeds to register (it is
unregistered, `do_register` is set, child recursion is disabled) while
some child with `do_register` set has not completed registration, the
registration raises, provided the parent's `boolean_level` is `None` --
the `Register children before parent` check lives in the internal
surface-loop scan, which only runs in that case. -/
theorem register_rejects_unregistered_children {T P : Type}
    (b : Block T P) (k : Kernel)
    (hdr : b.data.do_register = true) (hir : b.data.is_registered = false)
    (hdrc : b.data.do_register_children = false)
    (hbl : b.data.boolean_level = none)
    (hc : ∃ c ∈ b.children, c.data.do_register = true ∧ c.data.is_registered = false) :
    Block.register b k = .error "Register children before parent!" := by
  obtain ⟨d, cs⟩ := b
  simp only [Block.data] at hdr hir hdrc hbl
  simp only [Block.children] at hc
  rw [Block.register]
  simp only [hdrc, if_false, Bool.false_eq_true]
  simp only [hdr, hir, Bool.not_true, Bool.false_or, if_false, Bool.false_eq_true]
  simp only [register_points, register_curve_points, register_curves,
    register_curves_loops, register_surfaces, register_surfaces_loops]
  simp only [hbl]
  rw [collect_internal_volumes_error cs hc]

/-- A minimal Block instance state: registration enabled, everything
else empty or at the `__init__` defaults. -/
def blankData (T P : Type) : BlockData T P where
  points := []
  curvePoints := []
  register_tag := false
  do_register := true
  do_unregister := false
  do_register_children := true
  do_unregister_children := true
  do_unregister_boolean := false
  do_unregister_boolean_children := true
  transforms := []
  curves_structures := []
  surfaces_structures := []
  volumes_structures := []
  surfaces_quadrates := []
  volumes := []
  hasParent := false
  children_transforms := []
  boolean_level := none
  surfaces_loops := []
  is_registered := false
  pointTags := []
  curveTags := []
  curveLoopTags := []
  surfaceTags := []

/-- An unregistered child with `do_register` set. -/
def c1ChildData : BlockData Unit Unit :=
  { blankData Unit Unit with
    volumes := [{ zone := "V", tag := none, surfaces_loops := [] }]
    surfaces_loops := [{ tag := none, surfaces := [] }]
    hasParent := true }

/-- The child Block of the registration-ordering examples. -/
def c1Child : Block Unit Unit := .mk c1ChildData []

/-- A parent with child registration disabled and a boolean level, whose
only child is unregistered with `do_register` set. -/
def c1BoolParent : Block Unit Unit :=
  .mk { blankData Unit Unit with
        do_register_children := false
        boolean_level := some 1
        volumes := [{ zone := "V", tag := none, surfaces_loops := [] }]
        surfaces_loops := [{ tag := none, surfaces := [] }] }
      [c1Child]

/-- The same parent with `boolean_level` left `None`. -/
def c1NoneParent : Block Unit Unit :=
  .mk { blankData Unit Unit with
        do_register_children := false
        volumes := [{ zone := "V", tag := none, surfaces_loops := [] }]
        surfaces_loops := [{ tag := none, surfaces := [] }] }
      [c1Child]

/-- A fresh kernel session. -/
def initialKernel : Kernel where
  nextTag := 0
  trace := []
  regVolumes := []

/-- C1 counterexample: with `boolean_level` set, registering a parent
whose `do_register` child never completed registration does not raise:
it silently proceeds and registers the parent volume (tag 13 enters the
kernel's registered volumes and the parent is marked registered). -/
theorem register_with_boolean_level_silently_registers_parent :
    (Block.register c1BoolParent initialKernel).map
        (fun r => (r.2.regVolumes, r.1.data.is_registered)) = .ok ([13], true) := by
  rfl

/-- C1 witness: the amended theorem at the concrete parent whose
`boolean_level` is `None`. -/
theorem register_rejects_unregistered_children_witness :
    Block.register c1NoneParent initialKernel = .error "Register children before parent!" :=
  register_rejects_unregistered_children c1NoneParent initialKernel rfl rfl rfl rfl
    ⟨c1Child, List.Mem.head _, rfl, rfl⟩

theorem collect_internal_volumes_ok {T P : Type} :
    ∀ cs : List (Block T P),
    (∀ c ∈ cs, c.data.do_register = true → c.data.is_registered = true) →
    collect_internal_volumes cs =
      .ok ((cs.filter (fun c => c.data.do_register)).map (fun c => c.data.volumes)) := by
  intro cs h
  induction cs with
  | nil => rfl
  | cons c cs ih =>
    rw [collect_internal_volumes]
    by_cases h1 : c.data.do_register = true
    · have h2 := h c (List.Mem.head _) h1
      have ih' := ih (fun c' hc' => h c' (List.Mem.tail _ hc'))
      simp [h1, h2, ih']
    · simp only [Bool.not_eq_true] at h1
      have ih' := ih (fun c' hc' => h c' (List.Mem.tail _ hc'))
      simp [h1, ih']

theorem register_groups_spec :
    ∀ (gs : List (List Nat)) (k : Kernel),
    (register_groups gs k).1.map (fun sl => sl.surfaces) = gs ∧
    (register_groups gs k).1.all (fun sl => sl.tag.isSome) = true := by
  intro gs
  induction gs with
  | nil => intro k; exact ⟨rfl, rfl⟩
  | cons g gs ih =>
    intro k
    rw [register_groups]
    simp only [register_surface_loop]
    have h := ih { k with nextTag := k.nextTag + 1,
                          trace := k.trace ++ [KEvent.surfaceLoopEv k.nextTag g] }
    refine ⟨?_, ?_⟩
    · simp only [List.map_cons]
      rw [h.1]
    · simp only [List.all_cons]
      rw [h.2]
      rfl

/-- C4: with `boolean_level` `None` and every `do_register` child
registered, the surface-loop registration produces the outer loop over
the Block's own 6 registered faces followed by exactly one registered
internal loop per group computed by the boolean grouping collaborator
over the `do_register` children's volume boundary face-tag lists; with a
boolean level set, no internal loop is computed from the children. -/
theorem register_surfaces_loops_groups {T P : Type}
    (d : BlockData T P) (children : List (Block T P)) (k : Kernel) (sl : RSurfaceLoop)
    (hsl : d.surfaces_loops = [sl])
    (hreg : ∀ c ∈ children, c.data.do_register = true → c.data.is_registered = true) :
    (d.boolean_level = none →
      ∃ d' k', register_surfaces_loops d children k = .ok (d', k') ∧
        d'.surfaces_loops.map (fun l => l.surfaces) =
          d.surfaceTags ::
            volumes_surfaces_to_volumes_groups_surfaces
              ((((children.filter (fun c => c.data.do_register)).map
                  (fun c => c.data.volumes)).flatMap (fun x => x)).map
                (fun v => (v.surfaces_loops.headD { tag := none, surfaces := [] }).surfaces)) ∧
        d'.surfaces_loops.all (fun l => l.tag.isSome) = true) ∧
    (∀ l, d.boolean_level = some l →
      ∃ d' k', register_surfaces_loops d children k = .ok (d', k') ∧
        d'.surfaces_loops.map (fun l => l.surfaces) = [d.surfaceTags]) := by
  constructor
  · intro hbl
    rw [register_surfaces_loops, hbl, hsl]
    rw [collect_internal_volumes_ok children hreg]
    refine ⟨_, _, rfl, ?_, ?_⟩
    · simp only [List.set, List.headD, register_surface_loop, List.cons_append,
        List.nil_append, List.map_cons]
      rw [(register_groups_spec _ _).1]
    · simp only [List.set, List.headD, register_surface_loop, List.cons_append,
        List.nil_append, List.all_cons]
      rw [(register_groups_spec _ _).2]
      rfl
  · intro l hbl
    rw [register_surfaces_loops, hbl, hsl]
    exact ⟨_, _, rfl, by simp only [List.set, List.headD, register_surface_loop, List.map_cons,
      List.map_nil]⟩

/-- A registered child holding two volumes with boundary face-tag lists
`[1, 2, 3]` and `[3, 4, 5]`. -/
def c4Child1 : Block Unit Unit :=
  .mk { blankData Unit Unit with
        is_registered := true
        hasParent := true
        volumes := [{ zone := "V", tag := some 100,
                      surfaces_loops := [{ tag := some 50, surfaces := [1, 2, 3] }] },
                    { zone := "W", tag := some 101,
                      surfaces_loops := [{ tag := some 51, surfaces := [3, 4, 5] }] }] }
      []

/-- A registered child holding one volume with boundary face-tag list
`[9, 10]`. -/
def c4Child2 : Block Unit Unit :=
  .mk { blankData Unit Unit with
        is_registered := true
        hasParent := true
        volumes := [{ zone := "V", tag := some 102,
                      surfaces_loops := [{ tag := some 52, surfaces := [9, 10] }] }] }
      []

/-- The parent state of the surface-loop grouping example: its six
surfaces already registered with tags 6..11. -/
def c4ParentData : BlockData Unit Unit :=
  { blankData Unit Unit with
    volumes := [{ zone := "V", tag := none, surfaces_loops := [] }]
    surfaces_loops := [{ tag := none, surfaces := [] }]
    surfaceTags := [6, 7, 8, 9, 10, 11] }

/-- C4 witness: at the concrete parent, lists `[1,2,3]` and `[3,4,5]`
share tag 3 and fuse into one group while `[9,10]` stays apart, so
exactly two internal loops are appended after the outer loop. -/
theorem register_surfaces_loops_groups_witness :
    ∃ d' k',
      register_surfaces_loops c4ParentData [c4Child1, c4Child2] initialKernel = .ok (d', k') ∧
      d'.surfaces_loops.map (fun l => l.surfaces) =
        [[6, 7, 8, 9, 10, 11], [9, 10], [3, 4, 5, 1, 2, 3]] ∧
      d'.surfaces_loops.all (fun l => l.tag.isSome) = true := by
  obtain ⟨d', k', h1, h2, h3⟩ :=
    (register_surfaces_loops_groups c4ParentData [c4Child1, c4Child2] initialKernel
      { tag := none, surfaces := [] } rfl
      (by
        intro c hc _
        rcases hc with _ | ⟨_, hc⟩
        · rfl
        · rcases hc with _ | ⟨_, hc⟩
          · rfl
          · cases hc)).1 rfl
  refine ⟨d', k', h1, ?_, h3⟩
  rw [h2]
  rfl

mutual
/-- A Block on which `register()` is a no-op: self-registration is done
or disabled, and (when child recursion is enabled) all children are in
the same state. -/
def settledB {T P : Type} : Block T P → Bool
  | .mk d cs =>
    (!d.do_register || d.is_registered) && (!d.do_register_children || settledList cs)

/-- `settledB` over a child list. -/
def settledList {T P : Type} : List (Block T P) → Bool
  | [] => true
  | c :: cs => settledB c && settledList cs
end

mutual
theorem settledB_noop {T P : Type} :
    ∀ b : Block T P, settledB b = true → ∀ k, Block.register b k = .ok (b, k)
  | .mk d cs, h, k => by
    rw [settledB] at h
    simp only [Bool.and_eq_true] at h
    rw [Block.register]
    have hcs : (if d.do_register_children then registerChildren cs k else .ok (cs, k))
        = .ok (cs, k) := by
      by_cases hdrc : d.do_register_children = true
      · rw [if_pos hdrc]
        have h2 := h.2
        rw [hdrc] at h2
        simp only [Bool.not_true, Bool.false_or] at h2
        exact settledList_noop cs h2 k
      · simp only [Bool.not_eq_true] at hdrc
        rw [hdrc]
        simp
    rw [hcs]
    simp only [h.1, if_true]

theorem settledList_noop {T P : Type} :
    ∀ cs : List (Block T P), settledList cs = true → ∀ k, registerChildren cs k = .ok (cs, k)
  | [], _, k => by rw [registerChildren]
  | c :: cs, h, k => by
    rw [settledList] at h
    simp only [Bool.and_eq_true] at h
    rw [registerChildren, settledB_noop c h.1 k]
    dsimp only
    rw [settledList_noop cs h.2 k]
end

theorem register_surfaces_loops_preserves {T P : Type}
    (d : BlockData T P) (cs : List (Block T P)) (k : Kernel)
    (d' : BlockData T P) (k' : Kernel)
    (h : register_surfaces_loops d cs k = .ok (d', k')) :
    d'.do_register = d.do_register ∧ d'.do_register_children = d.do_register_children ∧
    d'.is_registered = d.is_registered := by
  rw [register_surfaces_loops] at h
  split at h
  split at h
  · injection h with h1
    obtain ⟨h2, h3⟩ := Prod.mk.injEq .. ▸ h1
    subst h2
    exact ⟨rfl, rfl, rfl⟩
  · split at h
    · exact absurd h (by simp)
    · dsimp only at h
      injection h with h1
      obtain ⟨h2, h3⟩ := Prod.mk.injEq .. ▸ h1
      subst h2
      exact ⟨rfl, rfl, rfl⟩

mutual
theorem registerB_settles {T P : Type} :
    ∀ (b : Block T P) (k : Kernel) (b' : Block T P) (k' : Kernel),
      Block.register b k = .ok (b', k') → settledB b' = true
  | .mk d cs, k, b', k', h => by
    rw [Block.register] at h
    split at h
    · exact absurd h (by simp)
    · rename_i cs' k1 hcs
      have hsettledCs : d.do_register_children = true → settledList cs' = true := by
        intro hdrc
        rw [if_pos hdrc] at hcs
        exact registerChildren_settles cs k cs' k1 hcs
      split at h
      · rename_i hg
        injection h with h1
        obtain ⟨h2, h3⟩ := Prod.mk.injEq .. ▸ h1
        subst h2
        rw [settledB]
        simp only [Bool.and_eq_true]
        refine ⟨hg, ?_⟩
        by_cases hdrc : d.do_register_children = true
        · simp [hdrc, hsettledCs hdrc]
        · simp only [Bool.not_eq_true] at hdrc
          simp [hdrc]
      · simp only [register_points, register_curve_points, register_curves,
          register_curves_loops, register_surfaces] at h
        split at h
        · exact absurd h (by simp)
        · rename_i d6 k7 hrsl
          simp only [register_volumes, register_structure, register_quadrate] at h
          injection h with h1
          obtain ⟨h2, h3⟩ := Prod.mk.injEq .. ▸ h1
          subst h2
          have hpres := register_surfaces_loops_preserves _ cs' _ d6 k7 hrsl
          rw [settledB]
          simp only [Bool.and_eq_true]
          constructor
          · simp
          · by_cases hdrc : d.do_register_children = true
            · simp [hsettledCs hdrc]
            · simp only [Bool.not_eq_true] at hdrc
              simp only [hpres.2.1]
              simp [hdrc]

theorem registerChildren_settles {T P : Type} :
    ∀ (cs : List (Block T P)) (k : Kernel) (cs' : List (Block T P)) (k' : Kernel),
      registerChildren cs k = .ok (cs', k') → settledList cs' = true
  | [], k, cs', k', h => by
    rw [registerChildren] at h
    injection h with h1
    obtain ⟨h2, h3⟩ := Prod.mk.injEq .. ▸ h1
    subst h2
    rw [settledList]
  | c :: cs, k, cs', k', h => by
    rw [registerChildren] at h
    split at h
    · exact absurd h (by simp)
    · rename_i c1 k1 hB
      split at h
      · exact absurd h (by simp)
      · rename_i cs1 k2 hL
        injection h with h1
        obtain ⟨h2, h3⟩ := Prod.mk.injEq .. ▸ h1
        subst h2
        rw [settledList]
        simp [registerB_settles c k c1 k1 hB, registerChildren_settles cs k1 cs1 k2 hL]
end

theorem register_preserves_flags {T P : Type} :
    ∀ (b : Block T P) (k : Kernel) (b' : Block T P) (k' : Kernel),
      Block.register b k = .ok (b', k') →
      b'.data.do_register = b.data.do_register ∧
      (b.data.do_register = true → b.data.is_registered = false →
        b'.data.is_registered = true)
  | .mk d cs, k, b', k', h => by
    rw [Block.register] at h
    split at h
    · exact absurd h (by simp)
    · rename_i cs' k1 hcs
      split at h
      · rename_i hg
        injection h with h1
        obtain ⟨h2, h3⟩ := Prod.mk.injEq .. ▸ h1
        subst h2
        refine ⟨rfl, ?_⟩
        intro hdr hir
        rw [Block.data] at hdr hir ⊢
        rw [hdr, hir] at hg
        exact absurd hg (by simp)
      · simp only [register_points, register_curve_points, register_curves,
          register_curves_loops, register_surfaces] at h
        split at h
        · exact absurd h (by simp)
        · rename_i d6 k7 hrsl
          simp only [register_volumes, register_structure, register_quadrate] at h
          injection h with h1
          obtain ⟨h2, h3⟩ := Prod.mk.injEq .. ▸ h1
          subst h2
          have hpres := register_surfaces_loops_preserves _ cs' _ d6 k7 hrsl
          constructor
          · rw [Block.data, Block.data]
            simp only [hpres.1]
          · intro _ _
            rfl

/-- C3: `register()` is idempotent: a successful registration yields a
state on which a second call returns the identical Block tree and the
identical kernel session (no further registrations, no duplicate
entities), and a Block that actually registers transitions
`is_registered` from false to true. -/
theorem register_idempotent {T P : Type} (b : Block T P) (k : Kernel) (b' : Block T P)
    (k' : Kernel) (h : Block.register b k = .ok (b', k')) :
    Block.register b' k' = .ok (b', k') ∧
    (b.data.do_register = true → b.data.is_registered = false →
      b'.data.is_registered = true) :=
  ⟨settledB_noop b' (registerB_settles b k b' k' h) k',
   (register_preserves_flags b k b' k' h).2⟩

/-- The Block obtained by registering `c1Child` in a fresh kernel. -/
def c3Registered : Block Unit Unit :=
  match Block.register c1Child initialKernel with
  | .ok (b, _) => b
  | .error _ => c1Child

/-- The kernel session obtained by registering `c1Child`. -/
def c3Kernel : Kernel :=
  match Block.register c1Child initialKernel with
  | .ok (_, k) => k
  | .error _ => initialKernel

/-- C3 witness: the idempotence theorem applied to a concrete
registration. -/
theorem register_idempotent_witness :
    Block.register c3Registered c3Kernel = .ok (c3Registered, c3Kernel) ∧
    c3Registered.data.is_registered = true := by
  have h : Block.register c1Child initialKernel = .ok (c3Registered, c3Kernel) := by rfl
  exact ⟨(register_idempotent _ _ _ _ h).1, (register_idempotent _ _ _ _ h).2 rfl rfl⟩

theorem unregister_volumes_where_nodup (p : RVolume → Bool) :
    ∀ (vs : List RVolume) (k : Kernel), k.regVolumes.Nodup →
      (unregister_volumes_where p vs k).2.regVolumes.Nodup
  | [], _, hnd => hnd
  | v :: vs, k, hnd => by
    rw [unregister_volumes_where]
    dsimp only
    refine unregister_volumes_where_nodup p vs _ ?_
    by_cases hp : p v = true
    · rw [if_pos hp, unregister_volume]
      cases htag : v.tag with
      | some s => exact hnd.erase s
      | none => exact hnd
    · rw [if_neg hp]
      exact hnd

theorem unregister_volumes_where_mem (p : RVolume → Bool) :
    ∀ (vs : List RVolume) (k : Kernel), k.regVolumes.Nodup → ∀ t : Nat,
      t ∈ (unregister_volumes_where p vs k).2.regVolumes ↔
        (t ∈ k.regVolumes ∧ ∀ v ∈ vs, p v = true → v.tag ≠ some t)
  | [], k, _, t => by
    rw [unregister_volumes_where]
    simp
  | v :: vs, k, hnd, t => by
    rw [unregister_volumes_where]
    dsimp only
    by_cases hp : p v = true
    · rw [if_pos hp]
      cases htag : v.tag with
      | some s =>
        have hk' : (unregister_volume v k).2.regVolumes = k.regVolumes.erase s := by
          rw [unregister_volume, htag]
        have hnd' : (unregister_volume v k).2.regVolumes.Nodup := by
          rw [hk']
          exact hnd.erase s
        rw [unregister_volumes_where_mem p vs _ hnd' t, hk',
          List.Nodup.mem_erase_iff hnd]
        constructor
        · rintro ⟨⟨hts, htk⟩, htail⟩
          refine ⟨htk, ?_⟩
          intro v' hv' hpv'
          rcases List.mem_cons.mp hv' with rfl | hv'
          · rw [htag]
            intro hcon
            injection hcon with hc
            exact hts hc.symm
          · exact htail v' hv' hpv'
        · rintro ⟨htk, hall⟩
          have hhead := hall v (List.Mem.head _) hp
          rw [htag] at hhead
          refine ⟨⟨?_, htk⟩, ?_⟩
          · intro hts
            exact hhead (by rw [hts])
          · intro v' hv' hpv'
            exact hall v' (List.Mem.tail _ hv') hpv'
      | none =>
        have hk' : (unregister_volume v k).2 = k := by
          rw [unregister_volume, htag]
        rw [hk', unregister_volumes_where_mem p vs k hnd t]
        constructor
        · rintro ⟨htk, htail⟩
          refine ⟨htk, ?_⟩
          intro v' hv' hpv'
          rcases List.mem_cons.mp hv' with rfl | hv'
          · rw [htag]
            simp
          · exact htail v' hv' hpv'
        · rintro ⟨htk, hall⟩
          exact ⟨htk, fun v' hv' hpv' => hall v' (List.Mem.tail _ hv') hpv'⟩
    · rw [if_neg hp]
      rw [unregister_volumes_where_mem p vs k hnd t]
      constructor
      · rintro ⟨htk, htail⟩
        refine ⟨htk, ?_⟩
        intro v' hv' hpv'
        rcases List.mem_cons.mp hv' with rfl | hv'
        · exact absurd hpv' hp
        · exact htail v' hv' hpv'
      · rintro ⟨htk, hall⟩
        exact ⟨htk, fun v' hv' hpv' => hall v' (List.Mem.tail _ hv') hpv'⟩

/-- C6: on a registered childless Block in a duplicate-free kernel
session, `unregister()` with the default separator removes from the
kernel exactly those of its volumes whose zone does not contain `'-'`,
and `unregister_boolean()` removes exactly those whose zone contains
`'-'` -- the latter only when `boolean_level` is set and
`do_unregister_boolean` is set, the former only when `do_unregister` is
set. -/
theorem unregister_zone_separator_exact {T P : Type} (d : BlockData T P) (k : Kernel)
    (hnd : k.regVolumes.Nodup) :
    (d.do_unregister = true → d.is_registered = true →
      ∀ t : Nat, t ∈ (Block.unregister '-' (Block.mk d []) k).2.regVolumes ↔
        (t ∈ k.regVolumes ∧
          ∀ v ∈ d.volumes, zoneContains v.zone '-' = false → v.tag ≠ some t)) ∧
    (d.do_unregister_boolean = true → d.is_registered = true → ∀ l : Int,
      d.boolean_level = some l →
      ∀ t : Nat, t ∈ (Block.unregister_boolean '-' (Block.mk d []) k).2.regVolumes ↔
        (t ∈ k.regVolumes ∧
          ∀ v ∈ d.volumes, zoneContains v.zone '-' = true → v.tag ≠ some t)) ∧
    (d.boolean_level = none → (Block.unregister_boolean '-' (Block.mk d []) k).2 = k) ∧
    (d.do_unregister_boolean = false →
      (Block.unregister_boolean '-' (Block.mk d []) k).2 = k) ∧
    (d.do_unregister = false → (Block.unregister '-' (Block.mk d []) k).2 = k) := by
  have hcs : (if d.do_unregister_children then unregisterChildren ([] : List (Block T P)) k
      else ([], k)) = ([], k) := by
    by_cases h : d.do_unregister_children = true
    · rw [if_pos h, unregisterChildren]
    · rw [if_neg h]
  have hcsb : (if d.do_unregister_boolean_children then
      unregisterBooleanChildren ([] : List (Block T P)) k else ([], k)) = ([], k) := by
    by_cases h : d.do_unregister_boolean_children = true
    · rw [if_pos h, unregisterBooleanChildren]
    · rw [if_neg h]
  refine ⟨?_, ?_, ?_, ?_, ?_⟩
  · intro hdu hir t
    rw [Block.unregister, hcs]
    simp only [hdu, hir, Bool.not_true, Bool.false_eq_true, if_false]
    rw [unregister_volumes_where_mem _ d.volumes k hnd t]
    constructor
    · rintro ⟨htk, hall⟩
      refine ⟨htk, ?_⟩
      intro v hv hz
      exact hall v hv (by simp [hz])
    · rintro ⟨htk, hall⟩
      refine ⟨htk, ?_⟩
      intro v hv hz
      simp only [Bool.not_eq_true'] at hz
      exact hall v hv hz
  · intro hdub hir l hbl t
    rw [Block.unregister_boolean, hcsb]
    simp only [hdub, hir, hbl, Bool.not_true, Bool.or_self, Bool.false_eq_true, if_false]
    rw [unregister_volumes_where_mem _ d.volumes k hnd t]
  · intro hbl
    rw [Block.unregister_boolean, hcsb]
    by_cases hdub : (!d.is_registered || !d.do_unregister_boolean) = true
    · simp only [hdub, if_true]
    · simp only [hdub, Bool.false_eq_true, if_false, hbl]
  · intro hdub
    rw [Block.unregister_boolean, hcsb]
    simp only [hdub, Bool.not_false, Bool.or_true, if_true]
  · intro hdu
    rw [Block.unregister, hcs]
    simp only [hdu, Bool.not_false, if_true]

/-- A registered Block with a simple volume zoned `A` (tag 0) and a
boolean-derived volume zoned `A-B` (tag 1), both passes enabled. -/
def c6Data : BlockData Unit Unit :=
  { blankData Unit Unit with
    is_registered := true
    do_unregister := true
    do_unregister_boolean := true
    boolean_level := some 1
    volumes := [{ zone := "A", tag := some 0, surfaces_loops := [] },
                { zone := "A-B", tag := some 1, surfaces_loops := [] }] }

/-- The kernel session holding the two volumes of `c6Data`. -/
def c6Kernel : Kernel where
  nextTag := 2
  trace := []
  regVolumes := [0, 1]

/-- C6 witness: the volume zoned `A` is removed only by the normal pass
and the volume zoned `A-B` only by the boolean pass. -/
theorem unregister_zone_separator_exact_witness :
    (0 ∉ (Block.unregister '-' (Block.mk c6Data []) c6Kernel).2.regVolumes ∧
     1 ∈ (Block.unregister '-' (Block.mk c6Data []) c6Kernel).2.regVolumes) ∧
    (1 ∉ (Block.unregister_boolean '-' (Block.mk c6Data []) c6Kernel).2.regVolumes ∧
     0 ∈ (Block.unregister_boolean '-' (Block.mk c6Data []) c6Kernel).2.regVolumes) := by
  have h := unregister_zone_separator_exact c6Data c6Kernel (by decide)
  refine ⟨⟨?_, ?_⟩, ⟨?_, ?_⟩⟩
  · intro hmem
    have hv := ((h.1 rfl rfl 0).mp hmem).2
      { zone := "A", tag := some 0, surfaces_loops := [] } (List.Mem.head _) (by rfl)
    exact hv rfl
  · refine (h.1 rfl rfl 1).mpr ⟨by decide, ?_⟩
    intro v hv
    rcases List.mem_cons.mp hv with rfl | hv
    · intro _
      decide
    · rcases List.mem_cons.mp hv with rfl | hv
      · intro hz
        exact absurd hz (by decide)
      · cases hv
  · intro hmem
    have hv := ((h.2.1 rfl rfl 1 rfl 1).mp hmem).2
      { zone := "A-B", tag := some 1, surfaces_loops := [] }
      (List.Mem.tail _ (List.Mem.head _)) (by rfl)
    exact hv rfl
  · refine (h.2.1 rfl rfl 1 rfl 0).mpr ⟨by decide, ?_⟩
    intro v hv
    rcases List.mem_cons.mp hv with rfl | hv
    · intro hz
      exact absurd hz (by decide)
    · rcases List.mem_cons.mp hv with rfl | hv
      · intro _
        decide
      · cases hv

/-- C8 witness: the rotation statement of the amended topology theorem
at the NY face. -/
theorem topology_tables_match_documentation_up_to_rotation_witness :
    ∃ r < 4,
      surfaces_curves.getD 2 [] = (surfaces_curves_documented.getD 2 []).rotateLeft r ∧
      surfaces_curves_signs.getD 2 [] =
        (surfaces_curves_signs_documented.getD 2 []).rotateLeft r :=
  topology_tables_match_documentation_up_to_rotation.2 2 (by decide)

/-- The in-place update `transform()` applies to a point list: every
payload is replaced by its transform under the accumulated list. -/
def transformedPoints {T P : Type} (app : T → P → P) (ts : List T)
    (ps : List (TPoint P)) : List (TPoint P) :=
  ps.map (fun p => { p with val := reduce_transforms app ts p.val })

theorem transform_points_ok {T P : Type} (app : T → P → P) (hp : Bool) (ts : List T) :
    ∀ (ps ps' : List (TPoint P)), transform_points app hp ts ps = .ok ps' →
      ps' = transformedPoints app ts ps
  | [], ps', h => by
    rw [transform_points] at h
    injection h with h1
    exact h1.symm
  | p :: ps, ps', h => by
    rw [transform_points] at h
    split at h
    · exact absurd h (by simp)
    · split at h
      · exact absurd h (by simp)
      · rename_i ps1 hps1
        injection h with h1
        rw [transformedPoints, List.map_cons]
        rw [transform_points_ok app hp ts ps ps1 hps1] at h1
        exact h1.symm

theorem transform_curve_points_ok {T P : Type} (app : T → P → P) (hp : Bool) (ts : List T) :
    ∀ (cps cps' : List (List (TPoint P))), transform_curve_points app hp ts cps = .ok cps' →
      cps' = cps.map (transformedPoints app ts)
  | [], cps', h => by
    rw [transform_curve_points] at h
    injection h with h1
    exact h1.symm
  | c :: cs, cps', h => by
    rw [transform_curve_points] at h
    split at h
    · exact absurd h (by simp)
    · rename_i c' hc'
      split at h
      · exact absurd h (by simp)
      · rename_i cs' hcs'
        injection h with h1
        rw [List.map_cons, ← transform_points_ok app hp ts c c' hc',
          ← transform_curve_points_ok app hp ts cs cs' hcs']
        exact h1.symm

theorem transformAux_ok {T P : Type} (app : T → P → P) (extra : List T)
    (d : BlockData T P) (cs : List (Block T P)) (b' : Block T P)
    (h : Block.transformAux app extra (.mk d cs) = .ok b') :
    ∃ cs', transformChildrenAux app cs d.children_transforms (d.transforms ++ extra) = .ok cs' ∧
      b' = .mk { d with transforms := d.transforms ++ extra,
                        points := transformedPoints app (d.transforms ++ extra) d.points,
                        curvePoints :=
                          d.curvePoints.map (transformedPoints app (d.transforms ++ extra)) }
             cs' := by
  rw [Block.transformAux] at h
  split at h
  · exact absurd h (by simp)
  · rename_i cs' hcs
    split at h
    · exact absurd h (by simp)
    · rename_i ps' hps
      split at h
      · exact absurd h (by simp)
      · rename_i cps' hcps
        injection h with h1
        refine ⟨cs', hcs, ?_⟩
        rw [← h1, transform_points_ok app d.hasParent _ d.points ps' hps,
          transform_curve_points_ok app d.hasParent _ d.curvePoints cps' hcps]

theorem transformChildrenAux_get {T P : Type} (app : T → P → P) :
    ∀ (cs : List (Block T P)) (cts : List (List T)) (ts : List T)
      (cs' : List (Block T P)),
      transformChildrenAux app cs cts ts = .ok cs' →
      ∀ (i : Nat) (ci : Block T P), cs.get? i = some ci →
        ∃ ci', cs'.get? i = some ci' ∧
          Block.transformAux app (cts.getD i [] ++ ts) ci = .ok ci'
  | [], cts, ts, cs', h, i, ci, hci => by simp at hci
  | c :: cs, cts, ts, cs', h, i, ci, hci => by
    rw [transformChildrenAux] at h
    split at h
    · exact absurd h (by simp)
    · rename_i c' hc'
      split at h
      · exact absurd h (by simp)
      · rename_i cs1 hcs1
        injection h with h1
        subst h1
        match i with
        | 0 =>
          rw [List.get?_cons_zero] at hci
          injection hci with hci
          subst hci
          refine ⟨c', by rw [List.get?_cons_zero], ?_⟩
          have hhd : cts.headD [] = cts.getD 0 [] := by cases cts <;> rfl
          rw [← hhd]
          exact hc'
        | i + 1 =>
          rw [List.get?_cons_succ] at hci
          obtain ⟨ci', h2, h3⟩ :=
            transformChildrenAux_get app cs cts.tail ts cs1 hcs1 i ci hci
          refine ⟨ci', by rw [List.get?_cons_succ]; exact h2, ?_⟩
          have htl : cts.tail.getD i [] = cts.getD (i + 1) [] := by cases cts <;> rfl
          rw [← htl]
          exact h3

/-- C7: a successful `transform()` gives child `i` the transform list
extended with its declared `children_transforms[i]` followed by the
parent's own transforms, and the child's points receive exactly that
composition with the parent's transforms applied last, before the
parent's own points are transformed with only the parent's list. -/
theorem transform_extends_children_then_self {T P : Type} (app : T → P → P)
    (b b' : Block T P) (i : Nat) (ci : Block T P)
    (h : Block.transform app b = .ok b') (hci : b.children.get? i = some ci) :
    ∃ ci', b'.children.get? i = some ci' ∧
      ci'.data.transforms =
        ci.data.transforms ++ (b.data.children_transforms.getD i [] ++ b.data.transforms) ∧
      ci'.data.points = ci.data.points.map (fun p => { p with
        val := reduce_transforms app b.data.transforms
          (reduce_transforms app (b.data.children_transforms.getD i [])
            (reduce_transforms app ci.data.transforms p.val)) }) ∧
      b'.data.points = transformedPoints app b.data.transforms b.data.points := by
  obtain ⟨d, cs⟩ := b
  rw [Block.transform] at h
  obtain ⟨cs', hcs, hb'⟩ := transformAux_ok app [] d cs b' h
  subst hb'
  rw [Block.children] at hci
  obtain ⟨ci', hget, haux⟩ := transformChildrenAux_get app cs d.children_transforms
    (d.transforms ++ []) cs' hcs i ci hci
  obtain ⟨dc, csc⟩ := ci
  obtain ⟨csc', hcsc, hci'⟩ := transformAux_ok app _ dc csc ci' haux
  subst hci'
  refine ⟨_, hget, ?_, ?_, ?_⟩
  · simp only [Block.data]
    simp [List.append_nil, List.append_assoc]
  · simp only [Block.data]
    rw [transformedPoints]
    apply List.map_congr_left
    intro p _
    simp only [reduce_transforms, List.append_nil, List.foldl_append]
  · simp only [Block.data]
    rw [transformedPoints, transformedPoints]
    apply List.map_congr_left
    intro p _
    simp only [reduce_transforms, List.append_nil]

/-- The successor action used by the concrete transform examples: every
transform in the list adds one. -/
def appSucc : Unit → Nat → Nat := fun _ n => n + 1

/-- A child with one own transform and one point at 0. -/
def c7Child : Block Unit Nat :=
  .mk { blankData Unit Nat with
        transforms := [()]
        points := [⟨false, 0⟩]
        hasParent := true } []

/-- A parent with one own transform, one declared child transform and
one point at 5. -/
def c7Parent : Block Unit Nat :=
  .mk { blankData Unit Nat with
        transforms := [()]
        children_transforms := [[()]]
        points := [⟨false, 5⟩] } [c7Child]

/-- The transformed parent of the C7 example. -/
def c7Result : Block Unit Nat :=
  match Block.transform appSucc c7Parent with
  | .ok b => b
  | .error _ => c7Parent

/-- C7 witness: the child ends with three accumulated transforms (own,
declared, parent's) and its point moves 0 to 3, while the parent's own
point moves 5 to 6 under only the parent's list. -/
theorem transform_extends_children_then_self_witness :
    ∃ ci', c7Result.children.get? 0 = some ci' ∧
      ci'.data.transforms = [(), (), ()] ∧
      ci'.data.points.map (fun p => p.val) = [3] ∧
      c7Result.data.points.map (fun p => p.val) = [6] := by
  have h : Block.transform appSucc c7Parent = .ok c7Result := by rfl
  obtain ⟨ci', h1, h2, h3, h4⟩ :=
    transform_extends_children_then_self appSucc c7Parent c7Result 0 c7Child h rfl
  refine ⟨ci', h1, ?_, ?_, ?_⟩
  · rw [h2]
    rfl
  · rw [h3]
    rfl
  · rw [h4]
    rfl

theorem transform_points_eval {T P : Type} (app : T → P → P) (hp : Bool) (ts : List T) :
    ∀ ps : List (TPoint P), ps.all (fun p => !p.isBlockCS || hp) = true →
      transform_points app hp ts ps = .ok (transformedPoints app ts ps)
  | [], _ => by
    rw [transform_points, transformedPoints]
    rfl
  | p :: ps, h => by
    rw [List.all_cons, Bool.and_eq_true] at h
    have hcond : (p.isBlockCS && !hp) = false := by
      have h1 := h.1
      cases hb : p.isBlockCS
      · rfl
      · rw [hb] at h1
        simp only [Bool.not_true, Bool.false_or] at h1
        rw [h1]
        rfl
    rw [transform_points, hcond]
    simp only [Bool.false_eq_true, if_false]
    rw [transform_points_eval app hp ts ps h.2]
    rfl

theorem transform_points_error_of_bad {T P : Type} (app : T → P → P) (ts : List T) :
    ∀ ps : List (TPoint P), ps.any (fun p => p.isBlockCS) = true →
      transform_points app false ts ps =
        .error "The parent must exist with Block Coordinate System!"
  | [], h => by simp at h
  | p :: ps, h => by
    rw [List.any_cons, Bool.or_eq_true] at h
    rw [transform_points]
    by_cases hb : p.isBlockCS = true
    · simp [hb]
    · simp only [Bool.not_eq_true] at hb
      have htail : ps.any (fun p => p.isBlockCS) = true := by
        rcases h with h | h
        · rw [hb] at h
          cases h
        · exact h
      rw [transform_points_error_of_bad app ts ps htail]
      simp [hb]

theorem transform_curve_points_eval {T P : Type} (app : T → P → P) (hp : Bool) (ts : List T) :
    ∀ cps : List (List (TPoint P)),
      cps.all (fun c => c.all (fun p => !p.isBlockCS || hp)) = true →
      transform_curve_points app hp ts cps = .ok (cps.map (transformedPoints app ts))
  | [], _ => by
    rw [transform_curve_points]
    rfl
  | c :: cs, h => by
    rw [List.all_cons, Bool.and_eq_true] at h
    rw [transform_curve_points, transform_points_eval app hp ts c h.1]
    rw [transform_curve_points_eval app hp ts cs h.2]
    rfl

theorem transform_curve_points_error_of_bad {T P : Type} (app : T → P → P) (ts : List T) :
    ∀ cps : List (List (TPoint P)),
      cps.any (fun c => c.any (fun p => p.isBlockCS)) = true →
      transform_curve_points app false ts cps =
        .error "The parent must exist with Block Coordinate System!"
  | [], h => by simp at h
  | c :: cs, h => by
    rw [List.any_cons, Bool.or_eq_true] at h
    rw [transform_curve_points]
    by_cases hc : c.any (fun p => p.isBlockCS) = true
    · rw [transform_points_error_of_bad app ts c hc]
    · simp only [Bool.not_eq_true] at hc
      have htail : cs.any (fun c => c.any (fun p => p.isBlockCS)) = true := by
        rcases h with h | h
        · rw [hc] at h
          cases h
        · exact h
      have hall : c.all (fun p => !p.isBlockCS || false) = true := by
        rw [List.all_eq_true]
        intro x hx
        have h2 : x.isBlockCS = false := by
          cases hxb : x.isBlockCS
          · rfl
          · exact absurd (List.any_eq_true.mpr ⟨x, hx, hxb⟩) (by rw [hc]; simp)
        simp [h2]
      rw [transform_points_eval app false ts c hall,
        transform_curve_points_error_of_bad app ts cs htail]

/-- C9: calling `transform()` on a Block without a parent that owns a
point or a curve interior point in the Block-relative coordinate system
raises; it never resolves or skips the relative coordinates silently. -/
theorem transform_requires_parent {T P : Type} (app : T → P → P) (b : Block T P)
    (hp : b.data.hasParent = false)
    (hbad : (b.data.points.any (fun p => p.isBlockCS) ||
             b.data.curvePoints.any (fun c => c.any (fun p => p.isBlockCS))) = true) :
    ∃ e, Block.transform app b = .error e := by
  obtain ⟨d, cs⟩ := b
  simp only [Block.data] at hp hbad
  rw [Block.transform, Block.transformAux]
  cases hcs : transformChildrenAux app cs d.children_transforms (d.transforms ++ []) with
  | error e => exact ⟨e, rfl⟩
  | ok cs' =>
    rw [hp]
    rw [Bool.or_eq_true] at hbad
    by_cases hpts : d.points.any (fun p => p.isBlockCS) = true
    · rw [transform_points_error_of_bad app _ d.points hpts]
      exact ⟨_, rfl⟩
    · simp only [Bool.not_eq_true] at hpts
      have hcps : d.curvePoints.any (fun c => c.any (fun p => p.isBlockCS)) = true := by
        rcases hbad with h | h
        · rw [hpts] at h
          cases h
        · exact h
      have hall : d.points.all (fun p => !p.isBlockCS || false) = true := by
        rw [List.all_eq_true]
        intro x hx
        have h2 : x.isBlockCS = false := by
          cases hxb : x.isBlockCS
          · rfl
          · exact absurd (List.any_eq_true.mpr ⟨x, hx, hxb⟩) (by rw [hpts]; simp)
        simp [h2]
      rw [transform_points_eval app false _ d.points hall,
        transform_curve_points_error_of_bad app _ d.curvePoints hcps]
      exact ⟨_, rfl⟩

/-- A parentless Block owning one Block-relative point. -/
def c9Block : Block Unit Nat :=
  .mk { blankData Unit Nat with points := [⟨true, 0⟩] } []

/-- C9 witness: the theorem at the concrete parentless Block. -/
theorem transform_requires_parent_witness :
    ∃ e, Block.transform appSucc c9Block = .error e :=
  transform_requires_parent appSucc c9Block rfl rfl

theorem transformedPoints_preserves_blockcs {T P : Type} (app : T → P → P) (ts : List T)
    (hp : Bool) (ps : List (TPoint P)) :
    (transformedPoints app ts ps).all (fun p => !p.isBlockCS || hp) =
      ps.all (fun p => !p.isBlockCS || hp) := by
  rw [transformedPoints, List.all_map]
  rfl

theorem transformedPoints_map_preserves_blockcs {T P : Type} (app : T → P → P) (ts : List T)
    (hp : Bool) : ∀ cps : List (List (TPoint P)),
    (cps.map (transformedPoints app ts)).all (fun c => c.all (fun p => !p.isBlockCS || hp)) =
      cps.all (fun c => c.all (fun p => !p.isBlockCS || hp))
  | [] => rfl
  | c :: cs => by
    rw [List.map_cons, List.all_cons, List.all_cons,
      transformedPoints_preserves_blockcs,
      transformedPoints_map_preserves_blockcs app ts hp cs]

theorem transformAux_leaf_eval {T P : Type} (app : T → P → P) (extra : List T)
    (cd : BlockData T P)
    (hcp : cd.points.all (fun p => !p.isBlockCS || cd.hasParent) = true)
    (hcc : cd.curvePoints.all (fun c => c.all (fun p => !p.isBlockCS || cd.hasParent)) = true) :
    Block.transformAux app extra (.mk cd []) = .ok (.mk { cd with
      transforms := cd.transforms ++ extra
      points := transformedPoints app (cd.transforms ++ extra) cd.points
      curvePoints := cd.curvePoints.map (transformedPoints app (cd.transforms ++ extra)) } []) := by
  rw [Block.transformAux, transformChildrenAux]
  rw [transform_points_eval app cd.hasParent _ cd.points hcp]
  rw [transform_curve_points_eval app cd.hasParent _ cd.curvePoints hcc]

theorem transformAux_one_child_eval {T P : Type} (app : T → P → P) (extra : List T)
    (d cd : BlockData T P) (ct : List T)
    (hcts : d.children_transforms = [ct])
    (hdp : d.points.all (fun p => !p.isBlockCS || d.hasParent) = true)
    (hdc : d.curvePoints.all (fun c => c.all (fun p => !p.isBlockCS || d.hasParent)) = true)
    (hcp : cd.points.all (fun p => !p.isBlockCS || cd.hasParent) = true)
    (hcc : cd.curvePoints.all (fun c => c.all (fun p => !p.isBlockCS || cd.hasParent)) = true) :
    Block.transformAux app extra (.mk d [.mk cd []]) = .ok (.mk { d with
      transforms := d.transforms ++ extra
      points := transformedPoints app (d.transforms ++ extra) d.points
      curvePoints := d.curvePoints.map (transformedPoints app (d.transforms ++ extra)) }
      [.mk { cd with
        transforms := cd.transforms ++ (ct ++ (d.transforms ++ extra))
        points := transformedPoints app (cd.transforms ++ (ct ++ (d.transforms ++ extra))) cd.points
        curvePoints := cd.curvePoints.map
          (transformedPoints app (cd.transforms ++ (ct ++ (d.transforms ++ extra)))) } []]) := by
  rw [Block.transformAux, transformChildrenAux, hcts]
  rw [List.headD_cons]
  rw [transformAux_leaf_eval app (ct ++ (d.transforms ++ extra)) cd hcp hcc]
  rw [transformChildrenAux]
  rw [transform_points_eval app d.hasParent _ d.points hdp]
  rw [transform_curve_points_eval app d.hasParent _ d.curvePoints hdc]

/-- C10 (amended): `transform()` is not idempotent: each call extends a
child's transform list in place with `children_transforms[i]` followed by
the parent's transforms, and each call re-applies the child's whole
accumulated list, so after two calls a direct child's list carries the
parent's transforms twice and its points have received them three times
in total (once from the first call, twice from the second). -/
theorem transform_not_idempotent {T P : Type} (app : T → P → P) (d cd : BlockData T P)
    (ct : List T)
    (hcts : d.children_transforms = [ct])
    (hdp : d.points.all (fun p => !p.isBlockCS || d.hasParent) = true)
    (hdc : d.curvePoints.all (fun c => c.all (fun p => !p.isBlockCS || d.hasParent)) = true)
    (hcp : cd.points.all (fun p => !p.isBlockCS || cd.hasParent) = true)
    (hcc : cd.curvePoints.all (fun c => c.all (fun p => !p.isBlockCS || cd.hasParent)) = true) :
    ∃ b1 b2 c2,
      Block.transform app (.mk d [.mk cd []]) = .ok b1 ∧
      Block.transform app b1 = .ok b2 ∧
      b2.children.get? 0 = some c2 ∧
      c2.data.transforms =
        (cd.transforms ++ (ct ++ d.transforms)) ++ (ct ++ d.transforms) ∧
      c2.data.points = cd.points.map (fun p => { p with
        val := reduce_transforms app
          ((cd.transforms ++ (ct ++ d.transforms)) ++ (ct ++ d.transforms))
          (reduce_transforms app (cd.transforms ++ (ct ++ d.transforms)) p.val) }) := by
  have h1 := transformAux_one_child_eval app [] d cd ct hcts hdp hdc hcp hcc
  have h2 := transformAux_one_child_eval app []
    { d with
      transforms := d.transforms ++ []
      points := transformedPoints app (d.transforms ++ []) d.points
      curvePoints := d.curvePoints.map (transformedPoints app (d.transforms ++ [])) }
    { cd with
      transforms := cd.transforms ++ (ct ++ (d.transforms ++ []))
      points := transformedPoints app (cd.transforms ++ (ct ++ (d.transforms ++ []))) cd.points
      curvePoints := cd.curvePoints.map
        (transformedPoints app (cd.transforms ++ (ct ++ (d.transforms ++ [])))) }
    ct hcts
    (by simp only [transformedPoints_preserves_blockcs]; exact hdp)
    (by simp only [transformedPoints_map_preserves_blockcs]; exact hdc)
    (by simp only [transformedPoints_preserves_blockcs]; exact hcp)
    (by simp only [transformedPoints_map_preserves_blockcs]; exact hcc)
  rw [← Block.transform] at h1 h2
  refine ⟨_, _, _, h1, h2, rfl, ?_, ?_⟩
  · simp only [Block.data]
    simp [List.append_nil, List.append_assoc]
  · simp only [Block.data]
    rw [transformedPoints, transformedPoints, List.map_map]
    apply List.map_congr_left
    intro p _
    simp [reduce_transforms, List.append_nil]

/-- The child of the non-idempotence example: one point at 0, no own
transforms. -/
def c10ChildData : BlockData Unit Nat :=
  { blankData Unit Nat with
    points := [⟨false, 0⟩]
    hasParent := true }

/-- The parent of the non-idempotence example: one transform (adding 1
under `appSucc`) and an empty declared child transform list. -/
def c10ParentData : BlockData Unit Nat :=
  { blankData Unit Nat with
    transforms := [()]
    children_transforms := [[]] }

/-- C10 counterexample: calling `transform()` twice moves the child's
point from 0 to 3 (the parent's one-element transform list is applied
once by the first call and twice more by the second), while applying the
parent's list exactly twice, as the claim predicts, would yield 2. -/
theorem transform_twice_applies_parent_list_three_times :
    ((Block.transform appSucc (.mk c10ParentData [.mk c10ChildData []])).bind
        (fun b => Block.transform appSucc b)).map
      (fun b => b.children.map (fun c => c.data.points.map (fun p => p.val))) = .ok [[3]] ∧
    reduce_transforms appSucc (c10ParentData.transforms ++ c10ParentData.transforms) 0 = 2 ∧
    ([[3]] : List (List Nat)) ≠ [[2]] := by
  refine ⟨rfl, rfl, by decide⟩

/-- C10 witness: the amended theorem at the concrete two-call example. -/
theorem transform_not_idempotent_witness :
    ∃ b1 b2 c2,
      Block.transform appSucc (.mk c10ParentData [.mk c10ChildData []]) = .ok b1 ∧
      Block.transform appSucc b1 = .ok b2 ∧
      b2.children.get? 0 = some c2 ∧
      c2.data.transforms =
        (c10ChildData.transforms ++ ([] ++ c10ParentData.transforms)) ++
          ([] ++ c10ParentData.transforms) ∧
      c2.data.points = c10ChildData.points.map (fun p => { p with
        val := reduce_transforms appSucc
          ((c10ChildData.transforms ++ ([] ++ c10ParentData.transforms)) ++
            ([] ++ c10ParentData.transforms))
          (reduce_transforms appSucc
            (c10ChildData.transforms ++ ([] ++ c10ParentData.transforms)) p.val) }) :=
  transform_not_idempotent appSucc c10ParentData c10ChildData [] rfl rfl rfl rfl rfl
